import Mathlib

/-!
Verification of the live-dubbing pipeline of this repository.

The embedded code is `backend/src/app/services/dubbing.py` (the
`DubbingService` class: segment buffering, the translate/synthesize stage,
audio assembly, job state transitions) and `backend/src/app/routes/dubbing.py`
(the status, audio and cancel routes).

Embedding conventions:
* a Python string is a `List Char` (`Str`); `len` is `List.length`,
  `s.strip()` emptiness is `isBlank`;
* audio byte blobs are `List Nat`;
* the remote translation / text-to-speech round trips of
  `_translate_and_synthesize` are abstracted by an outcome oracle indexed by
  the number of calls made so far;
* the mutable record `active_jobs[job_id]` is threaded explicitly; the
  asynchronous interleaving of transcript callbacks and the cancel route is
  modelled by a list of events consumed by the ingestion loop.
-/

/-- Python strings, embedded as lists of characters. -/
abbrev Str := List Char

/-- Audio byte blobs, embedded as lists of bytes. -/
abbrev AudioBytes := List Nat

/-- Python `not s.strip()`: the string is empty or whitespace-only
(`dubbing.py:133`). -/
def isBlank (s : Str) : Bool := s.all Char.isWhitespace

/-- Buffer append of `dubbing.py:141-144`: `buffer_content += " " + transcript`
when the buffer is non-empty, else `buffer_content = transcript`. -/
def appendFrag (buffer t : Str) : Str :=
  if buffer = [] then t else buffer ++ ' ' :: t

/-- The flush trigger of `dubbing.py:147`: `len(buffer_content) > 150`.
It is the only flush trigger in the code; no elapsed-time condition is
checked anywhere. -/
def shouldFlush (buffer : Str) : Bool := decide (buffer.length > 150)

/-- State of the segment buffer: the accumulator `buffer_content` and the
texts already handed to `_translate_and_synthesize`, in emission order. -/
structure BufState where
  buffer : Str
  units : List Str
deriving DecidableEq

/-- The transcript handler `on_message` of `dubbing.py:131-156`, restricted to
its effect on the accumulator and on the sequence of emitted unit texts (the
call to `_translate_and_synthesize` is the emission point). -/
def on_message (st : BufState) (transcript : Str) : BufState :=
  if isBlank transcript then st
  else
    let buf := appendFrag st.buffer transcript
    if shouldFlush buf then { buffer := [], units := st.units ++ [buf] }
    else { buffer := buf, units := st.units }

/-- Feeding a whole fragment stream to the buffer, starting empty. -/
def segment_run (fs : List Str) : BufState :=
  fs.foldl on_message { buffer := [], units := [] }

/-- The end-of-stream flush of `dubbing.py:178-186`: a remaining accumulator
with non-blank content becomes one final unit. -/
def endFlush (st : BufState) : List Str :=
  if isBlank st.buffer then st.units else st.units ++ [st.buffer]

/-- All unit texts emitted for a fragment stream, final flush included. -/
def segment_units (fs : List Str) : List Str := endFlush (segment_run fs)

/-- The fragments that survive the blank filter of `dubbing.py:133-134`. -/
def kept (fs : List Str) : List Str := fs.filter (fun f => !(isBlank f))

/-- Joining a list of texts by single spaces. -/
def joinSp : List Str → Str
  | [] => []
  | [x] => x
  | x :: y :: xs => x ++ ' ' :: joinSp (y :: xs)

/-- Joining two already-joined texts by a single space, when both are
non-empty. -/
def glue (a b : Str) : Str :=
  if a = [] then b else if b = [] then a else a ++ ' ' :: b

/-- The emitted units together with the still-pending accumulator. -/
def pend (st : BufState) : List Str :=
  st.units ++ (if st.buffer = [] then [] else [st.buffer])

lemma isBlank_nil : isBlank [] = true := rfl

lemma ne_nil_of_not_blank {s : Str} (h : isBlank s = false) : s ≠ [] := by
  intro hs
  rw [hs, isBlank_nil] at h
  cases h

lemma isBlank_append_left {a : Str} (c : Str) (h : isBlank a = false) :
    isBlank (a ++ c) = false := by
  simp only [isBlank, List.all_append, Bool.and_eq_false_iff]
  exact Or.inl h

lemma joinSp_cons (x : Str) (l : List Str) :
    joinSp (x :: l) = if l = [] then x else x ++ ' ' :: joinSp l := by
  cases l with
  | nil => simp [joinSp]
  | cons y ys => simp [joinSp]

lemma joinSp_ne_nil {l : List Str} (hl : l ≠ []) (h : ∀ u ∈ l, u ≠ []) :
    joinSp l ≠ [] := by
  match l with
  | [x] => simpa [joinSp] using h x (by simp)
  | x :: y :: ys =>
      simp only [joinSp, ne_eq, List.append_eq_nil]
      intro hc
      cases hc.2

lemma glue_nil_left (b : Str) : glue [] b = b := by simp [glue]

lemma glue_nil_right (a : Str) : glue a [] = a := by
  unfold glue
  by_cases h : a = []
  · simp [h]
  · simp [h]

lemma sp_cons_ne_nil (a b : Str) : a ++ ' ' :: b ≠ [] := by simp

lemma joinSp_append (l m : List Str) (hl : ∀ u ∈ l, u ≠ [])
    (hm : ∀ u ∈ m, u ≠ []) :
    joinSp (l ++ m) = glue (joinSp l) (joinSp m) := by
  induction l with
  | nil => simp [joinSp, glue_nil_left]
  | cons a l ih =>
    have ha : a ≠ [] := hl a (by simp)
    have hl2 : ∀ u ∈ l, u ≠ [] := fun u hu => hl u (by simp [hu])
    rcases eq_or_ne l [] with rfl | hlne
    · rcases eq_or_ne m [] with rfl | hmne
      · simp [joinSp, glue_nil_right]
      · have hjm : joinSp m ≠ [] := joinSp_ne_nil hmne hm
        rw [List.singleton_append, joinSp_cons a m, if_neg hmne]
        have h2 : joinSp [a] = a := rfl
        rw [h2]
        simp [glue, ha, hjm]
    · have h1 : l ++ m ≠ [] := fun hc => hlne (List.append_eq_nil.mp hc).1
      rw [List.cons_append, joinSp_cons, if_neg h1, ih hl2, joinSp_cons,
        if_neg hlne]
      have hja : joinSp l ≠ [] := joinSp_ne_nil hlne hl2
      rcases eq_or_ne (joinSp m) [] with hjm | hjm
      · rw [hjm, glue_nil_right, glue_nil_right]
      · simp only [glue, if_neg hja, if_neg hjm,
          if_neg (sp_cons_ne_nil a (joinSp l))]
        simp

lemma glue_assoc (a b c : Str) (hb : b ≠ []) :
    glue (glue a b) c = glue a (glue b c) := by
  rcases eq_or_ne a [] with rfl | hA
  · simp [glue_nil_left]
  · rcases eq_or_ne c [] with rfl | hC
    · simp [glue_nil_right]
    · have hab : glue a b = a ++ ' ' :: b := by
        simp [glue, hA, hb]
      have hbc : glue b c = b ++ ' ' :: c := by
        simp [glue, hb, hC]
      rw [hab, hbc]
      simp only [glue, if_neg (sp_cons_ne_nil a b), if_neg hC, if_neg hA,
        if_neg (sp_cons_ne_nil b c)]
      simp

lemma kept_ne_nil (fs : List Str) : ∀ u ∈ kept fs, u ≠ [] := by
  intro u hu
  have h2 : isBlank u = false := by
    have h3 := List.of_mem_filter hu
    simpa using h3
  exact ne_nil_of_not_blank h2

lemma pend_on_message (st : BufState) (t : Str) (ht : isBlank t = false) :
    pend (on_message st t) = st.units ++ [appendFrag st.buffer t] := by
  have hbuf : appendFrag st.buffer t ≠ [] := by
    have htne : t ≠ [] := ne_nil_of_not_blank ht
    unfold appendFrag
    split
    · exact htne
    · exact sp_cons_ne_nil _ _
  cases hf : shouldFlush (appendFrag st.buffer t) with
  | true => simp [on_message, ht, hf, pend]
  | false => simp [on_message, ht, hf, pend, hbuf]

lemma on_message_inv (st : BufState) (t : Str)
    (hu : ∀ u ∈ pend st, u ≠ [])
    (hb : st.buffer = [] ∨ isBlank st.buffer = false) :
    (∀ u ∈ pend (on_message st t), u ≠ []) ∧
      ((on_message st t).buffer = [] ∨
        isBlank (on_message st t).buffer = false) := by
  cases ht : isBlank t with
  | true =>
    have hstep : on_message st t = st := by simp [on_message, ht]
    rw [hstep]
    exact ⟨hu, hb⟩
  | false =>
    have htne : t ≠ [] := ne_nil_of_not_blank ht
    have hun : ∀ u ∈ st.units, u ≠ [] := fun u hu2 => hu u (by simp [pend, hu2])
    have hbuf : appendFrag st.buffer t ≠ [] := by
      unfold appendFrag
      split
      · exact htne
      · exact sp_cons_ne_nil _ _
    constructor
    · rw [pend_on_message st t ht]
      intro u hu2
      rcases List.mem_append.mp hu2 with h | h
      · exact hun u h
      · rw [List.mem_singleton.mp h]
        exact hbuf
    · have hblank : isBlank (appendFrag st.buffer t) = false := by
        unfold appendFrag
        rcases hb with hb0 | hbb
        · simp [hb0, ht]
        · have hbne : st.buffer ≠ [] := ne_nil_of_not_blank hbb
          simp only [if_neg hbne]
          exact isBlank_append_left _ hbb
      cases hf : shouldFlush (appendFrag st.buffer t) with
      | true => simp [on_message, ht, hf]
      | false =>
        right
        simp [on_message, ht, hf, hblank]

lemma join_on_message (st : BufState) (t : Str) (ht : isBlank t = false)
    (hu : ∀ u ∈ pend st, u ≠ [])
    (hb : st.buffer = [] ∨ isBlank st.buffer = false) :
    joinSp (pend (on_message st t)) = glue (joinSp (pend st)) t := by
  have htne : t ≠ [] := ne_nil_of_not_blank ht
  have hun : ∀ u ∈ st.units, u ≠ [] := fun u hu2 => hu u (by simp [pend, hu2])
  rw [pend_on_message st t ht]
  rcases hb with hb0 | hbb
  · have hp : pend st = st.units := by simp [pend, hb0]
    have ha : appendFrag st.buffer t = t := by simp [appendFrag, hb0]
    rw [ha, hp, joinSp_append st.units [t] hun (by simp [htne])]
    have h1 : joinSp [t] = t := rfl
    rw [h1]
  · have hbne : st.buffer ≠ [] := ne_nil_of_not_blank hbb
    have hp : pend st = st.units ++ [st.buffer] := by simp [pend, hbne]
    have ha : appendFrag st.buffer t = st.buffer ++ ' ' :: t := by
      simp [appendFrag, hbne]
    rw [ha, hp]
    rw [joinSp_append st.units [st.buffer ++ ' ' :: t] hun (by simp)]
    rw [joinSp_append st.units [st.buffer] hun (by simp [hbne])]
    have h1 : joinSp [st.buffer ++ ' ' :: t] = st.buffer ++ ' ' :: t := rfl
    have h2 : joinSp [st.buffer] = st.buffer := rfl
    rw [h1, h2, glue_assoc _ _ _ hbne]
    have h3 : glue st.buffer t = st.buffer ++ ' ' :: t := by
      simp [glue, hbne, htne]
    rw [h3]

lemma segment_fold_join : ∀ (fs : List Str) (st : BufState),
    (∀ u ∈ pend st, u ≠ []) →
    (st.buffer = [] ∨ isBlank st.buffer = false) →
    joinSp (pend (List.foldl on_message st fs)) =
        glue (joinSp (pend st)) (joinSp (kept fs)) ∧
      (∀ u ∈ pend (List.foldl on_message st fs), u ≠ []) ∧
      ((List.foldl on_message st fs).buffer = [] ∨
        isBlank (List.foldl on_message st fs).buffer = false) := by
  intro fs
  induction fs with
  | nil =>
    intro st hu hb
    refine ⟨?_, hu, hb⟩
    have h1 : kept [] = [] := rfl
    have h2 : joinSp [] = [] := rfl
    simp [h1, h2, glue_nil_right]
  | cons t fs ih =>
    intro st hu hb
    cases ht : isBlank t with
    | true =>
      have hstep : on_message st t = st := by simp [on_message, ht]
      have hk : kept (t :: fs) = kept fs := by simp [kept, ht]
      simp only [List.foldl_cons, hstep, hk]
      exact ih st hu hb
    | false =>
      obtain ⟨hu2, hb2⟩ := on_message_inv st t hu hb
      have hk : kept (t :: fs) = t :: kept fs := by simp [kept, ht]
      have hj := join_on_message st t ht hu hb
      have hmain := ih (on_message st t) hu2 hb2
      refine ⟨?_, hmain.2.1, hmain.2.2⟩
      rw [List.foldl_cons, hmain.1, hj, hk, joinSp_cons t (kept fs)]
      rcases eq_or_ne (kept fs) [] with hke | hke
      · rw [if_pos hke, hke]
        have h2 : joinSp ([] : List Str) = [] := rfl
        rw [h2, glue_nil_right]
      · rw [if_neg hke]
        have hjk : joinSp (kept fs) ≠ [] := joinSp_ne_nil hke (kept_ne_nil fs)
        rw [glue_assoc _ _ _ (ne_nil_of_not_blank ht)]
        have h3 : glue t (joinSp (kept fs)) = t ++ ' ' :: joinSp (kept fs) := by
          simp [glue, ne_nil_of_not_blank ht, hjk]
        rw [h3]

lemma endFlush_eq_pend (st : BufState)
    (hb : st.buffer = [] ∨ isBlank st.buffer = false) :
    endFlush st = pend st := by
  rcases hb with h | h
  · simp [endFlush, pend, h, isBlank_nil]
  · simp [endFlush, pend, h, ne_nil_of_not_blank h]

/-- C5: for every sequence of transcript fragments fed to the segment buffer,
empty or whitespace-only fragments are discarded, and the emitted unit texts,
joined in emission order by single spaces, equal the remaining fragments
joined by single spaces — no fragment is lost, none is flushed twice, and at
stream end a non-blank remaining accumulator is flushed as a final unit
(`endFlush` is part of `segment_units`). -/
theorem segment_buffer_text_preserved (fs : List Str) :
    joinSp (segment_units fs) = joinSp (kept fs) := by
  obtain ⟨h1, h2, h3⟩ := segment_fold_join fs { buffer := [], units := [] }
    (by simp [pend]) (Or.inl rfl)
  have hseg : segment_units fs =
      pend (List.foldl on_message { buffer := [], units := [] } fs) := by
    unfold segment_units segment_run
    exact endFlush_eq_pend _ h3
  rw [hseg, h1]
  have h4 : pend { buffer := [], units := [] } = ([] : List Str) := by
    simp [pend]
  rw [h4]
  have h5 : joinSp ([] : List Str) = [] := rfl
  rw [h5, glue_nil_left]

/-- C3 (code bug): the buffer flush decision of `dubbing.py:147` depends only
on the accumulator length (`len(buffer_content) > 150`); there is no
time-based trigger at all, although both the claim and the code's own comment
(`dubbing.py:146`) say a flush also fires when enough time has passed.
Feeding the single short fragment `"hello"` emits no unit and leaves the text
parked in the accumulator, no matter how much idle time elapses afterwards
(elapsed time is not even an input of the transition). -/
theorem no_time_based_flush :
    (segment_run ["hello".data]).units = [] ∧
      (segment_run ["hello".data]).buffer = "hello".data := by
  constructor <;> decide

/-- A synthesized audio fragment: the per-unit file `segment_{id}.mp3` of
`dubbing.py:250-251`, tagged with its unit's sequence number, plus its byte
content. -/
structure AudioFragment where
  seq : Nat
  bytes : AudioBytes
deriving DecidableEq

/-- The audio assembly loop of `dubbing.py:190-196`: start from an empty
track and concatenate the fragments in the order in which they sit in the
`audio_segments` list, i.e. in arrival (append) order. -/
def combine_audio (frags : List AudioFragment) : AudioBytes :=
  frags.foldl (fun acc f => acc ++ f.bytes) []

lemma combine_audio_foldl (frags : List AudioFragment) :
    ∀ acc : AudioBytes,
      frags.foldl (fun acc f => acc ++ f.bytes) acc =
        acc ++ (frags.map AudioFragment.bytes).flatten := by
  induction frags with
  | nil => intro acc; simp
  | cons f fs ih =>
    intro acc
    simp only [List.foldl_cons, List.map_cons, List.flatten_cons, ih]
    simp

/-- C4 (counterexample): the two fragments with sequence numbers 0 and 1,
carrying bytes `[0]` and `[1]`, delivered in the permuted order `[1, 0]`,
assemble to the track `[1, 0]` — the arrival order — and not to the
sequence-order track `[0, 1]` demanded by the claim. -/
theorem assembler_ignores_sequence_cex :
    combine_audio [{ seq := 1, bytes := [1] }, { seq := 0, bytes := [0] }] =
        [1, 0] ∧
      combine_audio [{ seq := 1, bytes := [1] }, { seq := 0, bytes := [0] }] ≠
        [0, 1] := by
  constructor <;> decide

/-- C4 (amended): the assembled output track is exactly the concatenation of
the fragment bytes in arrival order — the code performs no sequence-number
gating or reordering, so the track order equals `0..N-1` only when the
fragments are delivered in that order (which the sequentially awaited
pipeline of `_process_dubbing_job` always does). -/
theorem assembler_output_is_arrival_order (frags : List AudioFragment) :
    combine_audio frags = (frags.map AudioFragment.bytes).flatten := by
  unfold combine_audio
  simpa using combine_audio_foldl frags []

/-- Job lifecycle states: the status strings written by `dubbing.py` and
`routes/dubbing.py`. -/
inductive JobStatus
  | initializing
  | extracting_audio
  | transcribing
  | completed
  | completed_no_audio
  | failed
  | cancelled
deriving DecidableEq

/-- The status strings themselves, as stored in `active_jobs`. -/
def statusStr : JobStatus → Str
  | JobStatus.initializing => "initializing".data
  | JobStatus.extracting_audio => "extracting_audio".data
  | JobStatus.transcribing => "transcribing".data
  | JobStatus.completed => "completed".data
  | JobStatus.completed_no_audio => "completed_no_audio".data
  | JobStatus.failed => "failed".data
  | JobStatus.cancelled => "cancelled".data

/-- The per-job record `active_jobs[job_id]` (`dubbing.py:57-68`): `segments`
holds `{original, translated}` pairs. -/
structure Job where
  youtube_url : Str
  source_language : Str
  target_language : Str
  status : JobStatus
  created_at : Nat
  progress : Nat
  output_file : Option Str
  error : Option Str
  segments : List (Str × Str)
deriving DecidableEq

/-- The fresh record inserted by `start_dubbing_job` (`dubbing.py:57-68`);
the wall-clock `created_at` is abstracted to `0`. -/
def init_job (url srcLang tgtLang : Str) : Job :=
  { youtube_url := url, source_language := srcLang,
    target_language := tgtLang, status := JobStatus.initializing,
    created_at := 0, progress := 0, output_file := none, error := none,
    segments := [] }

/-- Outcome of one remote translate-then-synthesize round trip of
`_translate_and_synthesize` (`dubbing.py:230-270`): the translation call may
raise, the speech call may raise after a successful translation, or both may
succeed, yielding the translated text and the synthesized bytes. -/
inductive TransOutcome
  | translateFail (msg : Str)
  | synthFail (translated : Str) (msg : Str)
  | ok (translated : Str) (audio : AudioBytes)

/-- In-flight state of `_process_dubbing_job`: the shared record
`active_jobs[job_id]`, the accumulator `buffer_content`, the local lists of
`dubbing.py:112-115`, the number of remote round trips made so far (the
index into the outcome oracle), and the log of every value written to the
record's `progress` field, most recent first. -/
structure PipeState where
  job : Job
  buffer : Str
  transcripts : List Str
  translated : List Str
  audios : List AudioBytes
  calls : Nat
  plog : List Nat

/-- `_translate_and_synthesize` (`dubbing.py:212-270`) acting on the pipeline
state, given the oracle outcome of its remote calls. Mutations made before a
raise survive (they act on the shared record); the returned `Option Str` is
the raised exception's message, `none` on success. On success the job's
`segments` gains the `{original, translated}` pair, the synthesized bytes
are appended to `audio_segments`, and `progress` is set to the saturating
`min(90, len(audio_segments) * 5)` of `dubbing.py:266`. -/
def translate_and_synthesize (oracle : Nat → TransOutcome) (text : Str)
    (s : PipeState) : PipeState × Option Str :=
  match oracle s.calls with
  | TransOutcome.translateFail msg =>
      ({ s with calls := s.calls + 1 }, some msg)
  | TransOutcome.synthFail tr msg =>
      ({ s with
          translated := s.translated ++ [tr],
          job := { s.job with segments := s.job.segments ++ [(text, tr)] },
          calls := s.calls + 1 }, some msg)
  | TransOutcome.ok tr audio =>
      let audios2 := s.audios ++ [audio]
      let p := min 90 (audios2.length * 5)
      ({ s with
          translated := s.translated ++ [tr],
          audios := audios2,
          job := { s.job with
                    segments := s.job.segments ++ [(text, tr)],
                    progress := p },
          plog := p :: s.plog,
          calls := s.calls + 1 }, none)

/-- The cancel route's mutation (`routes/dubbing.py:135-136`): set the status
to `cancelled` unless it is already `completed` or `failed`. -/
def applyCancel (j : Job) : Job :=
  if j.status = JobStatus.completed ∨ j.status = JobStatus.failed then j
  else { j with status := JobStatus.cancelled }

/-- One observable event during the ingestion loop: either the Deepgram
`Transcript` callback fires with a transcript fragment, or the cancel route
runs concurrently and applies its mutation to the shared record. -/
inductive Event
  | transcript (t : Str)
  | cancelReq

/-- Effect of one event on the pipeline state. A transcript fragment runs
`on_message` (`dubbing.py:131-156`): blank fragments are dropped, the
fragment is logged and appended to the buffer, and a buffer longer than 150
characters is cleared and handed to `_translate_and_synthesize`. -/
def stepEvent (oracle : Nat → TransOutcome) (s : PipeState) (e : Event) :
    PipeState × Option Str :=
  match e with
  | Event.cancelReq => ({ s with job := applyCancel s.job }, none)
  | Event.transcript t =>
      if isBlank t then (s, none)
      else
        let s1 := { s with transcripts := s.transcripts ++ [t] }
        let buf := appendFrag s1.buffer t
        if shouldFlush buf then
          translate_and_synthesize oracle buf { s1 with buffer := [] }
        else ({ s1 with buffer := buf }, none)

/-- The ingestion loop of `dubbing.py:165-173`: events are consumed in order;
after each iteration the loop polls `active_jobs[job_id]["status"] ==
"cancelled"` and breaks when it holds; an exception raised inside
`_translate_and_synthesize` propagates out of the loop. -/
def runLoop (oracle : Nat → TransOutcome) :
    PipeState → List Event → PipeState × Option Str
  | s, [] => (s, none)
  | s, e :: es =>
      match stepEvent oracle s e with
      | (s1, some msg) => (s1, some msg)
      | (s1, none) =>
          if s1.job.status = JobStatus.cancelled then (s1, none)
          else runLoop oracle s1 es

/-- The post-loop flush of `dubbing.py:178-186`: a remaining buffer with
non-blank content is handed to `_translate_and_synthesize`. -/
def finishJob (oracle : Nat → TransOutcome) (s : PipeState) :
    PipeState × Option Str :=
  if isBlank s.buffer then (s, none)
  else translate_and_synthesize oracle s.buffer s

/-- The fixed output file name `dubbed_audio.mp3` inside the job directory
(`dubbing.py:189`). -/
def out_path : Str := "dubbed_audio.mp3".data

/-- The message stored in `error` by the no-audio branch (`dubbing.py:205`). -/
def no_audio_msg : Str := "No audio segments were created".data

/-- The pipeline state right after `dubbing.py:103-128`: the record has gone
through `extracting_audio` into `transcribing`, the buffer and the local
lists are empty, and the progress log holds the `0` written at creation. -/
def pipe_init (job0 : Job) : PipeState :=
  { job := { { job0 with status := JobStatus.extracting_audio } with
      status := JobStatus.transcribing },
    buffer := [], transcripts := [], translated := [], audios := [],
    calls := 0, plog := [job0.progress] }

/-- The assembly block of `dubbing.py:188-205`: with a non-empty
`audio_segments` list the track is combined and exported, the job goes to
`completed` with `output_file` set and progress 100; with no audio the job
goes to `completed_no_audio` and `error` records the fixed message. -/
def assemble (s2 : PipeState) : Job × List Nat :=
  if s2.audios = [] then
    ({ s2.job with
        status := JobStatus.completed_no_audio,
        error := some no_audio_msg }, s2.plog.reverse)
  else
    ({ s2.job with
        status := JobStatus.completed,
        output_file := some out_path,
        progress := 100 }, (100 :: s2.plog).reverse)

/-- Everything after the ingestion loop (`dubbing.py:176-205`): the final
buffer flush, whose failure fails the whole job through the handler of
`dubbing.py:207-210`, then assembly. -/
def finalize (oracle : Nat → TransOutcome) (s : PipeState) : Job × List Nat :=
  match finishJob oracle s with
  | (s2, some msg) =>
      ({ s2.job with status := JobStatus.failed, error := some msg },
        s2.plog.reverse)
  | (s2, none) => assemble s2

/-- `_process_dubbing_job` (`dubbing.py:90-210`) from creation to its
terminal state. `extract` is the outcome of `_get_youtube_audio_url` (an
exception message, or success); `oracle` gives the outcome of each remote
translate/synthesize round trip; `events` is the interleaving of transcript
callbacks and concurrent cancel requests seen by the ingestion loop. Returns
the final job record together with the chronological log of every value the
pipeline wrote to `progress` (starting with the `0` written at creation). -/
def process_dubbing_job (extract : Except Str Unit)
    (oracle : Nat → TransOutcome) (events : List Event) (job0 : Job) :
    Job × List Nat :=
  match extract with
  | Except.error msg =>
      ({ { job0 with status := JobStatus.extracting_audio } with
          status := JobStatus.failed, error := some msg }, [job0.progress])
  | Except.ok _ =>
      match runLoop oracle (pipe_init job0) events with
      | (s, some msg) =>
          ({ s.job with status := JobStatus.failed, error := some msg },
            s.plog.reverse)
      | (s, none) => finalize oracle s

/-- The global `active_jobs` mapping (`dubbing.py:25`), as an association
list from job id to record. -/
abbrev Registry := List (Str × Job)

/-- Python `job_id in active_jobs` / `active_jobs[job_id]`. -/
def findJob : Registry → Str → Option Job
  | [], _ => none
  | (k, j) :: rest, jid => if k = jid then some j else findJob rest jid

/-- In-place mutation of the record stored under a job id. -/
def setJob : Registry → Str → Job → Registry
  | [], _, _ => []
  | (k, j) :: rest, jid, j2 =>
      if k = jid then (k, j2) :: rest else (k, j) :: setJob rest jid j2

/-- A raised `HTTPException`: status code and detail string. -/
structure HErr where
  code : Nat
  detail : Str
deriving DecidableEq

/-- `get_job_status` (`dubbing.py:75-88`): raises a 404 `HTTPException` for
an unknown id, else returns the record; the registry is returned unchanged
because the handler performs no write. -/
def get_job_status (reg : Registry) (jid : Str) :
    Registry × Except HErr Job :=
  match findJob reg jid with
  | none =>
      (reg, Except.error
        { code := 404, detail := "Job ".data ++ jid ++ " not found".data })
  | some j => (reg, Except.ok j)

/-- The audio route `get_dubbed_audio` (`routes/dubbing.py:81-117`): 404 for
an unknown id, 400 (`NotReady`) while the status is not `completed`, 404
when no output file was recorded, else the output path. The final
`os.path.exists` check on the real filesystem is not modelled. The registry
is returned unchanged because the handler performs no write. -/
def get_dubbed_audio (reg : Registry) (jid : Str) :
    Registry × Except HErr Str :=
  match findJob reg jid with
  | none =>
      (reg, Except.error
        { code := 404, detail := "Job ".data ++ jid ++ " not found".data })
  | some j =>
      if j.status = JobStatus.completed then
        match j.output_file with
        | none =>
            (reg, Except.error
              { code := 404, detail := "No output file available".data })
        | some p => (reg, Except.ok p)
      else
        (reg, Except.error
          { code := 400,
            detail := "Job is not complete. Current status: ".data ++
              statusStr j.status })

/-- The cancel route `cancel_dubbing_job` (`routes/dubbing.py:119-144`): 404
for an unknown id; a job whose status is not in `["completed", "failed"]`
has its status set to `cancelled` and a success message is returned;
otherwise the record is untouched and an already-final message is
returned. -/
def cancel_dubbing_job (reg : Registry) (jid : Str) :
    Registry × Except HErr Str :=
  match findJob reg jid with
  | none =>
      (reg, Except.error
        { code := 404, detail := "Job ".data ++ jid ++ " not found".data })
  | some j =>
      if j.status = JobStatus.completed ∨ j.status = JobStatus.failed then
        (reg, Except.ok
          ("Job ".data ++ jid ++ " is already in final state: ".data ++
            statusStr j.status))
      else
        (setJob reg jid { j with status := JobStatus.cancelled },
          Except.ok ("Job ".data ++ jid ++ " cancelled successfully".data))

/-- A 151-character transcript fragment: one character beyond the 150
threshold, so it is flushed the moment it is appended. -/
def frag151 : Str := List.replicate 151 'x'

/-- An oracle whose remote calls always succeed, translating every unit to
`"T"` with synthesized bytes `[7]`. -/
def oracleOk : Nat → TransOutcome := fun _ => TransOutcome.ok "T".data [7]

/-- An oracle whose remote calls always fail with an empty message. -/
def oracleFail : Nat → TransOutcome := fun _ => TransOutcome.translateFail []

/-- The C1 scenario: one long fragment is transcribed and dubbed, then the
cancel route fires, then one more fragment arrives (which the halted loop
never ingests). -/
def eventsC1 : List Event :=
  [Event.transcript frag151, Event.cancelReq, Event.transcript "more".data]

/-- Final record of the C1 scenario. -/
def jobC1 : Job :=
  (process_dubbing_job (Except.ok ()) oracleOk eventsC1
    (init_job "u".data "de-DE".data "en".data)).1

set_option maxRecDepth 8000 in
/-- C1 (code bug): a cancellation observed by the ingestion loop does halt
ingestion (the post-cancel fragment is never processed, so only one segment
is logged), but the pipeline then falls through to assembly
(`dubbing.py:188-201`) and overwrites the `cancelled` status: the job
terminates `completed`, with `output_file` set and progress 100 — while the
cancel route has already answered "cancelled successfully". The claim (and
the route's own message) says the terminal state is `cancelled`, never
`completed`, with no output path. -/
theorem cancelled_job_still_completes :
    jobC1.status = JobStatus.completed ∧
      jobC1.output_file = some out_path ∧
      jobC1.progress = 100 ∧
      jobC1.error = none ∧
      jobC1.segments.length = 1 := by
  refine ⟨?_, ?_, ?_, ?_, ?_⟩ <;> decide

/-- An oracle whose first remote call fails with message `"boom"` and whose
later calls would succeed. -/
def oracleBoom : Nat → TransOutcome := fun n =>
  if n = 0 then TransOutcome.translateFail "boom".data
  else TransOutcome.ok "T".data [7]

/-- Final record of the C2 counterexample scenario: two long fragments, the
first unit's translation fails, the second would succeed. -/
def jobC2 : Job :=
  (process_dubbing_job (Except.ok ()) oracleBoom
    [Event.transcript frag151, Event.transcript frag151]
    (init_job "u".data "de-DE".data "en".data)).1

set_option maxRecDepth 8000 in
/-- C2 (counterexample): the first unit's failed translation is not skipped —
`_translate_and_synthesize` re-raises (`dubbing.py:268-270`), the whole job
goes to `failed` with the unit's error message, no segment is recorded, and
the second fragment (whose unit would have succeeded) is never processed.
This refutes "the job continues processing subsequent units; a single
unit-level failure never aborts the whole job". -/
theorem unit_failure_fails_whole_job_cex :
    jobC2.status = JobStatus.failed ∧
      jobC2.error = some "boom".data ∧
      jobC2.segments = [] ∧
      jobC2.output_file = none := by
  refine ⟨?_, ?_, ?_, ?_⟩ <;> decide

/-- C9: a job whose transcript stream yields zero fragments is not an error:
no unit is produced, and the job terminates `completed_no_audio` with an
empty `segments` list and no output path, for every oracle. -/
theorem empty_stream_completed_no_audio (url srcLang tgtLang : Str)
    (oracle : Nat → TransOutcome) :
    (process_dubbing_job (Except.ok ()) oracle []
          (init_job url srcLang tgtLang)).1.status =
        JobStatus.completed_no_audio ∧
      (process_dubbing_job (Except.ok ()) oracle []
          (init_job url srcLang tgtLang)).1.segments = [] ∧
      (process_dubbing_job (Except.ok ()) oracle []
          (init_job url srcLang tgtLang)).1.output_file = none := by
  exact ⟨rfl, rfl, rfl⟩

/-- Final record of a run with an empty transcript stream (the C7
counterexample). -/
def jobEmptyRun : Job :=
  (process_dubbing_job (Except.ok ()) oracleFail []
    (init_job "u".data "de-DE".data "en".data)).1

/-- C7 (counterexample): the `error` field is also written outside the
`failed` transition — the no-audio branch (`dubbing.py:204-205`) stores
"No audio segments were created" while setting the status to
`completed_no_audio`, refuting "errorDetail is set only on the transition
into the failed state". -/
theorem error_set_outside_failed_cex :
    jobEmptyRun.error = some no_audio_msg ∧
      jobEmptyRun.status = JobStatus.completed_no_audio ∧
      jobEmptyRun.status ≠ JobStatus.failed := by
  refine ⟨?_, ?_, ?_⟩ <;> decide

/-- A job record parked in the terminal state `completed_no_audio`. -/
def jobNA : Job :=
  { init_job "u".data "de-DE".data "en".data with
      status := JobStatus.completed_no_audio }

/-- C6 (counterexample): the cancel route only protects `completed` and
`failed` (`routes/dubbing.py:135`); a cancellation request for a job in the
terminal state `completed_no_audio` mutates it to `cancelled`, refuting
"once terminal, no operation mutates the state further". -/
theorem cancel_mutates_terminal_cex :
    findJob (cancel_dubbing_job [("a".data, jobNA)] "a".data).1 "a".data =
        some { jobNA with status := JobStatus.cancelled } ∧
      jobNA.status = JobStatus.completed_no_audio := by
  constructor <;> decide

lemma runLoop_cons_error (oracle : Nat → TransOutcome) (s s2 : PipeState)
    (e : Event) (es : List Event) (msg : Str)
    (h : stepEvent oracle s e = (s2, some msg)) :
    runLoop oracle s (e :: es) = (s2, some msg) := by
  unfold runLoop
  rw [h]

lemma runLoop_cons_ok_cancelled (oracle : Nat → TransOutcome)
    (s s2 : PipeState) (e : Event) (es : List Event)
    (h : stepEvent oracle s e = (s2, none))
    (hc : s2.job.status = JobStatus.cancelled) :
    runLoop oracle s (e :: es) = (s2, none) := by
  unfold runLoop
  rw [h]
  simp [hc]

lemma runLoop_cons_ok (oracle : Nat → TransOutcome) (s s2 : PipeState)
    (e : Event) (es : List Event)
    (h : stepEvent oracle s e = (s2, none))
    (hc : ¬s2.job.status = JobStatus.cancelled) :
    runLoop oracle s (e :: es) = runLoop oracle s2 es := by
  conv_lhs => unfold runLoop
  rw [h]
  simp [hc]

lemma runLoop_error_append (oracle : Nat → TransOutcome) :
    ∀ (events : List Event) (s s1 : PipeState) (msg : Str),
      runLoop oracle s events = (s1, some msg) →
      ∀ es2, runLoop oracle s (events ++ es2) = (s1, some msg) := by
  intro events
  induction events with
  | nil =>
    intro s s1 msg h es2
    have h2 : (none : Option Str) = some msg := congrArg Prod.snd h
    exact Option.noConfusion h2
  | cons e es ih =>
    intro s s1 msg h es2
    cases hst : stepEvent oracle s e with
    | mk s2 err =>
      cases err with
      | some m =>
        rw [runLoop_cons_error oracle s s2 e es m hst] at h
        rw [List.cons_append,
          runLoop_cons_error oracle s s2 e (es ++ es2) m hst]
        exact h
      | none =>
        by_cases hc : s2.job.status = JobStatus.cancelled
        · rw [runLoop_cons_ok_cancelled oracle s s2 e es hst hc] at h
          have h2 : (none : Option Str) = some msg := congrArg Prod.snd h
          exact Option.noConfusion h2
        · rw [runLoop_cons_ok oracle s s2 e es hst hc] at h
          rw [List.cons_append,
            runLoop_cons_ok oracle s s2 e (es ++ es2) hst hc]
          exact ih s2 s1 msg h es2

/-- C2 (amended): if the remote translation or speech-synthesis call of some
unit fails during the ingestion loop, the exception is re-raised
(`dubbing.py:268-270`), the orchestrator's handler marks the whole job
`failed` with `error` set to the failure message (`dubbing.py:207-210`), and
no later event — in particular no subsequent unit — is ever processed: a
single unit-level failure aborts the whole job instead of being skipped. -/
theorem unit_failure_aborts_job (url srcLang tgtLang : Str)
    (oracle : Nat → TransOutcome) (events : List Event) (s : PipeState)
    (msg : Str)
    (h : runLoop oracle (pipe_init (init_job url srcLang tgtLang)) events =
      (s, some msg)) :
    (process_dubbing_job (Except.ok ()) oracle events
        (init_job url srcLang tgtLang)).1.status = JobStatus.failed ∧
      (process_dubbing_job (Except.ok ()) oracle events
          (init_job url srcLang tgtLang)).1.error = some msg ∧
      ∀ es2 : List Event,
        process_dubbing_job (Except.ok ()) oracle (events ++ es2)
            (init_job url srcLang tgtLang) =
          process_dubbing_job (Except.ok ()) oracle events
            (init_job url srcLang tgtLang) := by
  have hps : process_dubbing_job (Except.ok ()) oracle events
      (init_job url srcLang tgtLang) =
      ({ s.job with status := JobStatus.failed, error := some msg },
        s.plog.reverse) := by
    dsimp only [process_dubbing_job]
    rw [h]
  refine ⟨by rw [hps], by rw [hps], ?_⟩
  intro es2
  have h2 := runLoop_error_append oracle events _ _ _ h es2
  have hps2 : process_dubbing_job (Except.ok ()) oracle (events ++ es2)
      (init_job url srcLang tgtLang) =
      ({ s.job with status := JobStatus.failed, error := some msg },
        s.plog.reverse) := by
    dsimp only [process_dubbing_job]
    rw [h2]
  rw [hps, hps2]

set_option maxRecDepth 8000 in
/-- Witness for the amended C2 theorem: the concrete one-fragment run whose
first translation call fails ends `failed`. -/
theorem unit_failure_aborts_job_witness :
    (process_dubbing_job (Except.ok ()) oracleBoom [Event.transcript frag151]
        (init_job "u".data "de-DE".data "en".data)).1.status =
      JobStatus.failed :=
  (unit_failure_aborts_job "u".data "de-DE".data "en".data oracleBoom
    [Event.transcript frag151] _ _ rfl).1

lemma findJob_setJob (reg : Registry) (jid : Str) (j2 : Job)
    (h : (findJob reg jid).isSome) :
    findJob (setJob reg jid j2) jid = some j2 := by
  induction reg with
  | nil => simp [findJob] at h
  | cons p rest ih =>
    obtain ⟨k, j⟩ := p
    by_cases hk : k = jid
    · simp [findJob, setJob, hk]
    · simp only [findJob, setJob, hk, if_false, if_neg hk] at h ⊢
      exact ih h

/-- C6 (amended): the cancel route treats only `completed` and `failed` as
final (`routes/dubbing.py:135`): a cancellation request for a job in either
of those states is a no-op answered with an "already in final state"
message, not an error; a request for a job in any other state — including
the terminal states `completed_no_audio` and `cancelled` — sets the stored
status to `cancelled` (a value-level no-op when it was already `cancelled`)
and answers "cancelled successfully". -/
theorem cancel_protects_only_completed_failed (reg : Registry) (jid : Str)
    (j : Job) (h : findJob reg jid = some j) :
    ((j.status = JobStatus.completed ∨ j.status = JobStatus.failed) →
        cancel_dubbing_job reg jid = (reg,
          Except.ok ("Job ".data ++ jid ++ " is already in final state: ".data
            ++ statusStr j.status))) ∧
      (j.status ≠ JobStatus.completed → j.status ≠ JobStatus.failed →
        findJob (cancel_dubbing_job reg jid).1 jid =
            some { j with status := JobStatus.cancelled } ∧
          (cancel_dubbing_job reg jid).2 =
            Except.ok ("Job ".data ++ jid ++ " cancelled successfully".data)) := by
  constructor
  · intro hterm
    dsimp only [cancel_dubbing_job]
    rw [h]
    simp [hterm]
  · intro h1 h2
    have hcond : ¬(j.status = JobStatus.completed ∨
        j.status = JobStatus.failed) := by
      rintro (hc | hc)
      · exact h1 hc
      · exact h2 hc
    constructor
    · dsimp only [cancel_dubbing_job]
      rw [h]
      simp only [if_neg hcond]
      exact findJob_setJob reg jid _ (by simp [h])
    · dsimp only [cancel_dubbing_job]
      rw [h]
      simp only [if_neg hcond]

/-- A job record parked in the terminal state `completed`. -/
def jobDone : Job :=
  { init_job "u".data "de-DE".data "en".data with
      status := JobStatus.completed }

/-- Witness for the amended C6 theorem: cancelling a completed job leaves
the registry unchanged and answers with the already-final message. -/
theorem cancel_protects_only_completed_failed_witness :
    cancel_dubbing_job [("a".data, jobDone)] "a".data =
      ([("a".data, jobDone)],
        Except.ok ("Job ".data ++ "a".data ++
          " is already in final state: ".data ++ statusStr jobDone.status)) :=
  (cancel_protects_only_completed_failed [("a".data, jobDone)] "a".data
    jobDone (by decide)).1 (Or.inl rfl)

/-- C10: the status query of `dubbing.py:85-88` fails with a 404
`HTTPException` (`NotFound`) on an unknown job id, the audio route of
`routes/dubbing.py:92-99` fails with a 400 `HTTPException` (`NotReady`)
whenever the job's state is not `completed`, and neither handler mutates
the registry or any job record. -/
theorem status_and_audio_queries (reg : Registry) (jid : Str) :
    (get_job_status reg jid).1 = reg ∧
      (get_dubbed_audio reg jid).1 = reg ∧
      (findJob reg jid = none →
        (get_job_status reg jid).2 = Except.error
          { code := 404, detail := "Job ".data ++ jid ++ " not found".data }) ∧
      (∀ j : Job, findJob reg jid = some j →
        j.status ≠ JobStatus.completed →
        (get_dubbed_audio reg jid).2 = Except.error
          { code := 400,
            detail := "Job is not complete. Current status: ".data ++
              statusStr j.status }) := by
  refine ⟨?_, ?_, ?_, ?_⟩
  · unfold get_job_status
    cases findJob reg jid <;> rfl
  · unfold get_dubbed_audio
    cases findJob reg jid with
    | none => rfl
    | some j =>
      dsimp only
      by_cases hs : j.status = JobStatus.completed
      · rw [if_pos hs]
        cases j.output_file <;> rfl
      · rw [if_neg hs]
  · intro h
    dsimp only [get_job_status]
    rw [h]
  · intro j hj hs
    dsimp only [get_dubbed_audio]
    rw [hj]
    simp only [if_neg hs]

lemma translate_error_field (oracle : Nat → TransOutcome) (text : Str)
    (s : PipeState) :
    ((translate_and_synthesize oracle text s).1).job.error = s.job.error := by
  unfold translate_and_synthesize
  cases oracle s.calls <;> rfl

lemma applyCancel_error_field (j : Job) : (applyCancel j).error = j.error := by
  unfold applyCancel
  split <;> rfl

lemma stepEvent_error_field (oracle : Nat → TransOutcome) (s : PipeState)
    (e : Event) : ((stepEvent oracle s e).1).job.error = s.job.error := by
  cases e with
  | cancelReq => exact applyCancel_error_field s.job
  | transcript t =>
    dsimp only [stepEvent]
    split
    · rfl
    · split
      · rw [translate_error_field]
      · rfl

lemma runLoop_error_field (oracle : Nat → TransOutcome) :
    ∀ (events : List Event) (s : PipeState),
      ((runLoop oracle s events).1).job.error = s.job.error := by
  intro events
  induction events with
  | nil => intro s; rfl
  | cons e es ih =>
    intro s
    cases hst : stepEvent oracle s e with
    | mk s2 err =>
      have hse : s2.job.error = s.job.error := by
        have h2 := stepEvent_error_field oracle s e
        rw [hst] at h2
        exact h2
      cases err with
      | some m =>
        rw [runLoop_cons_error oracle s s2 e es m hst]
        exact hse
      | none =>
        by_cases hc : s2.job.status = JobStatus.cancelled
        · rw [runLoop_cons_ok_cancelled oracle s s2 e es hst hc]
          exact hse
        · rw [runLoop_cons_ok oracle s s2 e es hst hc, ih s2]
          exact hse

lemma finishJob_error_field (oracle : Nat → TransOutcome) (s : PipeState) :
    ((finishJob oracle s).1).job.error = s.job.error := by
  unfold finishJob
  split
  · rfl
  · rw [translate_error_field]

/-- C7 (amended): over any whole run from a fresh record, the `error` field
is written at most once, on the transition into `failed` (the raised
exception's message) or into `completed_no_audio` (the fixed no-audio
message of `dubbing.py:205`); a job that ends `completed` has `error` unset,
and a run that ends with `error` set ended in `failed` or
`completed_no_audio`. -/
theorem error_detail_transitions (url srcLang tgtLang : Str)
    (extract : Except Str Unit) (oracle : Nat → TransOutcome)
    (events : List Event) :
    ((process_dubbing_job extract oracle events
            (init_job url srcLang tgtLang)).1.status = JobStatus.completed →
        (process_dubbing_job extract oracle events
            (init_job url srcLang tgtLang)).1.error = none) ∧
      ((process_dubbing_job extract oracle events
            (init_job url srcLang tgtLang)).1.status =
          JobStatus.completed_no_audio →
        (process_dubbing_job extract oracle events
            (init_job url srcLang tgtLang)).1.error = some no_audio_msg) ∧
      ((process_dubbing_job extract oracle events
            (init_job url srcLang tgtLang)).1.error ≠ none →
        (process_dubbing_job extract oracle events
            (init_job url srcLang tgtLang)).1.status = JobStatus.failed ∨
          (process_dubbing_job extract oracle events
              (init_job url srcLang tgtLang)).1.status =
            JobStatus.completed_no_audio) := by
  cases extract with
  | error msg =>
    exact ⟨fun h => JobStatus.noConfusion h, fun h => JobStatus.noConfusion h,
      fun _ => Or.inl rfl⟩
  | ok u =>
    cases u
    cases hr : runLoop oracle (pipe_init (init_job url srcLang tgtLang))
        events with
    | mk s err =>
      cases err with
      | some msg =>
        have hps : process_dubbing_job (Except.ok ()) oracle events
            (init_job url srcLang tgtLang) =
            ({ s.job with status := JobStatus.failed, error := some msg },
              s.plog.reverse) := by
          dsimp only [process_dubbing_job]
          rw [hr]
        rw [hps]
        exact ⟨fun h => JobStatus.noConfusion h,
          fun h => JobStatus.noConfusion h, fun _ => Or.inl rfl⟩
      | none =>
        have hps : process_dubbing_job (Except.ok ()) oracle events
            (init_job url srcLang tgtLang) = finalize oracle s := by
          dsimp only [process_dubbing_job]
          rw [hr]
        have hs_err : s.job.error = none := by
          have h2 := runLoop_error_field oracle events
            (pipe_init (init_job url srcLang tgtLang))
          rw [hr] at h2
          exact h2
        rw [hps]
        cases hf : finishJob oracle s with
        | mk s2 err2 =>
          have hs2_err : s2.job.error = none := by
            have h2 := finishJob_error_field oracle s
            rw [hf] at h2
            exact h2.trans hs_err
          cases err2 with
          | some msg =>
            have hfin : finalize oracle s =
                ({ s2.job with
                    status := JobStatus.failed,
                    error := some msg }, s2.plog.reverse) := by
              dsimp only [finalize]
              rw [hf]
            rw [hfin]
            exact ⟨fun h => JobStatus.noConfusion h,
              fun h => JobStatus.noConfusion h, fun _ => Or.inl rfl⟩
          | none =>
            have hfin : finalize oracle s = assemble s2 := by
              dsimp only [finalize]
              rw [hf]
            rw [hfin]
            by_cases ha : s2.audios = []
            · have has : assemble s2 =
                  ({ s2.job with
                      status := JobStatus.completed_no_audio,
                      error := some no_audio_msg }, s2.plog.reverse) := by
                unfold assemble
                rw [if_pos ha]
              rw [has]
              exact ⟨fun h => JobStatus.noConfusion h, fun _ => rfl,
                fun _ => Or.inr rfl⟩
            · have has : assemble s2 =
                  ({ s2.job with
                      status := JobStatus.completed,
                      output_file := some out_path,
                      progress := 100 }, (100 :: s2.plog).reverse) := by
                unfold assemble
                rw [if_neg ha]
              rw [has]
              exact ⟨fun _ => hs2_err, fun h => JobStatus.noConfusion h,
                fun hne => absurd hs2_err hne⟩

/-- Invariant of the pipeline state: the record's `progress` always equals
the saturating formula of `dubbing.py:266` applied to the number of
synthesized fragments, the progress log starts at the creation value `0`,
its most recent entry is the current `progress`, it is non-increasing from
most recent to oldest (i.e. non-decreasing chronologically), and every entry
is a value of the saturating formula. -/
def PInv (s : PipeState) : Prop :=
  s.job.progress = min 90 (s.audios.length * 5) ∧
    s.plog.head? = some s.job.progress ∧
    s.plog.getLast? = some 0 ∧
    List.Chain' (fun a b => b ≤ a) s.plog ∧
    (∀ p ∈ s.plog, ∃ k, p = min 90 (k * 5))

lemma translate_PInv (oracle : Nat → TransOutcome) (text : Str)
    (s : PipeState) (h : PInv s) :
    PInv (translate_and_synthesize oracle text s).1 := by
  obtain ⟨h1, h2, h3, h4, h5⟩ := h
  unfold translate_and_synthesize
  cases oracle s.calls with
  | translateFail msg => exact ⟨h1, h2, h3, h4, h5⟩
  | synthFail tr msg => exact ⟨h1, h2, h3, h4, h5⟩
  | ok tr audio =>
    dsimp only
    have hlen : (s.audios ++ [audio]).length = s.audios.length + 1 := by simp
    refine ⟨rfl, rfl, ?_, ?_, ?_⟩
    · cases hpl : s.plog with
      | nil => rw [hpl] at h2; exact Option.noConfusion h2
      | cons q l =>
        rw [List.getLast?_cons_cons]
        rw [hpl] at h3
        exact h3
    · rw [List.chain'_cons']
      constructor
      · intro y hy
        rw [h2, Option.mem_some_iff] at hy
        subst hy
        rw [h1, hlen]
        omega
      · exact h4
    · intro p2 hp2
      rcases List.mem_cons.mp hp2 with hp2 | hp2
      · exact ⟨s.audios.length + 1, by rw [hp2, hlen]⟩
      · exact h5 p2 hp2

lemma applyCancel_progress_field (j : Job) :
    (applyCancel j).progress = j.progress := by
  unfold applyCancel
  split <;> rfl

lemma stepEvent_PInv (oracle : Nat → TransOutcome) (s : PipeState)
    (e : Event) (h : PInv s) : PInv (stepEvent oracle s e).1 := by
  cases e with
  | cancelReq =>
    obtain ⟨h1, h2, h3, h4, h5⟩ := h
    dsimp only [stepEvent]
    refine ⟨?_, ?_, h3, h4, h5⟩
    · rw [applyCancel_progress_field]
      exact h1
    · rw [applyCancel_progress_field]
      exact h2
  | transcript t =>
    dsimp only [stepEvent]
    split
    · exact h
    · split
      · exact translate_PInv oracle _ _ h
      · exact h

lemma runLoop_PInv (oracle : Nat → TransOutcome) :
    ∀ (events : List Event) (s : PipeState), PInv s →
      PInv (runLoop oracle s events).1 := by
  intro events
  induction events with
  | nil => intro s h; exact h
  | cons e es ih =>
    intro s h
    cases hst : stepEvent oracle s e with
    | mk s2 err =>
      have h2 : PInv s2 := by
        have h3 := stepEvent_PInv oracle s e h
        rw [hst] at h3
        exact h3
      cases err with
      | some m =>
        rw [runLoop_cons_error oracle s s2 e es m hst]
        exact h2
      | none =>
        by_cases hc : s2.job.status = JobStatus.cancelled
        · rw [runLoop_cons_ok_cancelled oracle s s2 e es hst hc]
          exact h2
        · rw [runLoop_cons_ok oracle s s2 e es hst hc]
          exact ih s2 h2

lemma finishJob_PInv (oracle : Nat → TransOutcome) (s : PipeState)
    (h : PInv s) : PInv (finishJob oracle s).1 := by
  unfold finishJob
  split
  · exact h
  · exact translate_PInv oracle s.buffer s h

lemma pipe_init_PInv (url srcLang tgtLang : Str) :
    PInv (pipe_init (init_job url srcLang tgtLang)) := by
  refine ⟨rfl, rfl, rfl, ?_, ?_⟩
  · exact List.chain'_singleton _
  · intro p hp
    simp only [pipe_init, init_job, List.mem_singleton] at hp
    exact ⟨0, by omega⟩

lemma trace_facts (pl : List Nat) (hlast : pl.getLast? = some 0)
    (hchain : List.Chain' (fun a b => b ≤ a) pl)
    (hmem : ∀ p ∈ pl, ∃ k, p = min 90 (k * 5)) :
    pl.reverse.head? = some 0 ∧ List.Chain' (· ≤ ·) pl.reverse ∧
      (∀ p ∈ pl.reverse, p = 100 ∨ ∃ k, p = min 90 (k * 5)) ∧
      (∀ p ∈ pl.reverse, p ≤ 100) := by
  refine ⟨?_, ?_, ?_, ?_⟩
  · rw [List.head?_reverse]
    exact hlast
  · exact List.chain'_reverse.mpr hchain
  · intro p hp
    exact Or.inr (hmem p (List.mem_reverse.mp hp))
  · intro p hp
    obtain ⟨k, hk⟩ := hmem p (List.mem_reverse.mp hp)
    omega

lemma trace_facts_100 (s2 : PipeState) (h : PInv s2) :
    ((100 :: s2.plog).reverse).head? = some 0 ∧
      List.Chain' (· ≤ ·) ((100 :: s2.plog).reverse) ∧
      (∀ p ∈ (100 :: s2.plog).reverse, p = 100 ∨ ∃ k, p = min 90 (k * 5)) ∧
      (∀ p ∈ (100 :: s2.plog).reverse, p ≤ 100) := by
  obtain ⟨h1, h2, h3, h4, h5⟩ := h
  refine ⟨?_, ?_, ?_, ?_⟩
  · rw [List.head?_reverse]
    cases hpl : s2.plog with
    | nil => rw [hpl] at h2; exact Option.noConfusion h2
    | cons q l =>
      rw [List.getLast?_cons_cons]
      rw [hpl] at h3
      exact h3
  · apply List.chain'_reverse.mpr
    rw [List.chain'_cons']
    refine ⟨?_, h4⟩
    intro y hy
    rw [h2, Option.mem_some_iff] at hy
    subst hy
    rw [h1]
    show min 90 (s2.audios.length * 5) ≤ 100
    omega
  · intro p hp
    rw [List.mem_reverse] at hp
    rcases List.mem_cons.mp hp with hp | hp
    · exact Or.inl hp
    · exact Or.inr (h5 p hp)
  · intro p hp
    rw [List.mem_reverse] at hp
    rcases List.mem_cons.mp hp with hp | hp
    · omega
    · obtain ⟨k, hk⟩ := h5 p hp
      omega

/-- C8: over every run from a fresh record, the values written to the job's
`progress` field form a trace that starts at the creation value 0, is
monotonically non-decreasing, stays within 0–100, and consists of values of
the saturating formula `min(90, completedUnits * 5)` of `dubbing.py:266`
apart from the final 100; the final `progress` is 100 exactly when the job
ends `completed` (`dubbing.py:199-201`). -/
theorem progress_monotone_saturating (url srcLang tgtLang : Str)
    (extract : Except Str Unit) (oracle : Nat → TransOutcome)
    (events : List Event) :
    (process_dubbing_job extract oracle events
          (init_job url srcLang tgtLang)).2.head? = some 0 ∧
      List.Chain' (· ≤ ·)
        (process_dubbing_job extract oracle events
          (init_job url srcLang tgtLang)).2 ∧
      (∀ p ∈ (process_dubbing_job extract oracle events
          (init_job url srcLang tgtLang)).2,
        p = 100 ∨ ∃ k, p = min 90 (k * 5)) ∧
      (∀ p ∈ (process_dubbing_job extract oracle events
          (init_job url srcLang tgtLang)).2, p ≤ 100) ∧
      ((process_dubbing_job extract oracle events
            (init_job url srcLang tgtLang)).1.progress = 100 ↔
        (process_dubbing_job extract oracle events
            (init_job url srcLang tgtLang)).1.status =
          JobStatus.completed) := by
  cases extract with
  | error msg =>
    have hps : process_dubbing_job (Except.error msg) oracle events
        (init_job url srcLang tgtLang) =
        ({ { init_job url srcLang tgtLang with
              status := JobStatus.extracting_audio } with
            status := JobStatus.failed, error := some msg },
          [(init_job url srcLang tgtLang).progress]) := rfl
    rw [hps]
    refine ⟨rfl, List.chain'_singleton _, ?_, ?_, ?_, ?_⟩
    · intro p hp
      have hp0 : p = 0 := by simpa [init_job] using hp
      exact Or.inr ⟨0, by omega⟩
    · intro p hp
      have hp0 : p = 0 := by simpa [init_job] using hp
      omega
    · intro h
      have h9 : (0 : Nat) = 100 := h
      exact absurd h9 (by decide)
    · intro h
      exact JobStatus.noConfusion h
  | ok u =>
    cases u
    cases hr : runLoop oracle (pipe_init (init_job url srcLang tgtLang))
        events with
    | mk s err =>
      have hsP : PInv s := by
        have h6 := runLoop_PInv oracle events _
          (pipe_init_PInv url srcLang tgtLang)
        rw [hr] at h6
        exact h6
      obtain ⟨h1, h2, h3, h4, h5⟩ := hsP
      cases err with
      | some msg =>
        have hps : process_dubbing_job (Except.ok ()) oracle events
            (init_job url srcLang tgtLang) =
            ({ s.job with status := JobStatus.failed, error := some msg },
              s.plog.reverse) := by
          dsimp only [process_dubbing_job]
          rw [hr]
        rw [hps]
        obtain ⟨t1, t2, t3, t4⟩ := trace_facts s.plog h3 h4 h5
        refine ⟨t1, t2, t3, t4, ?_, ?_⟩
        · intro h
          have h9 : s.job.progress = 100 := h
          rw [h1] at h9
          exact absurd h9 (by omega)
        · intro h
          exact JobStatus.noConfusion h
      | none =>
        have hps : process_dubbing_job (Except.ok ()) oracle events
            (init_job url srcLang tgtLang) = finalize oracle s := by
          dsimp only [process_dubbing_job]
          rw [hr]
        rw [hps]
        cases hf : finishJob oracle s with
        | mk s2 err2 =>
          have hs2P : PInv s2 := by
            have h6 := finishJob_PInv oracle s ⟨h1, h2, h3, h4, h5⟩
            rw [hf] at h6
            exact h6
          obtain ⟨g1, g2, g3, g4, g5⟩ := hs2P
          cases err2 with
          | some msg =>
            have hfin : finalize oracle s =
                ({ s2.job with
                    status := JobStatus.failed,
                    error := some msg }, s2.plog.reverse) := by
              dsimp only [finalize]
              rw [hf]
            rw [hfin]
            obtain ⟨t1, t2, t3, t4⟩ := trace_facts s2.plog g3 g4 g5
            refine ⟨t1, t2, t3, t4, ?_, ?_⟩
            · intro h
              have h9 : s2.job.progress = 100 := h
              rw [g1] at h9
              exact absurd h9 (by omega)
            · intro h
              exact JobStatus.noConfusion h
          | none =>
            have hfin : finalize oracle s = assemble s2 := by
              dsimp only [finalize]
              rw [hf]
            rw [hfin]
            by_cases ha : s2.audios = []
            · have has : assemble s2 =
                  ({ s2.job with
                      status := JobStatus.completed_no_audio,
                      error := some no_audio_msg }, s2.plog.reverse) := by
                unfold assemble
                rw [if_pos ha]
              rw [has]
              obtain ⟨t1, t2, t3, t4⟩ := trace_facts s2.plog g3 g4 g5
              refine ⟨t1, t2, t3, t4, ?_, ?_⟩
              · intro h
                have h9 : s2.job.progress = 100 := h
                rw [g1] at h9
                exact absurd h9 (by omega)
              · intro h
                exact JobStatus.noConfusion h
            · have has : assemble s2 =
                  ({ s2.job with
                      status := JobStatus.completed,
                      output_file := some out_path,
                      progress := 100 }, (100 :: s2.plog).reverse) := by
                unfold assemble
                rw [if_neg ha]
              rw [has]
              obtain ⟨t1, t2, t3, t4⟩ :=
                trace_facts_100 s2 ⟨g1, g2, g3, g4, g5⟩
              exact ⟨t1, t2, t3, t4, fun _ => rfl, fun _ => rfl⟩
